import Mathlib

/-!
# Verification of the MimicVirgo geospatial core

Shallow embedding of the algorithmic core of the repository:

* `get_dem_value` (src/03_gw_potential.py, lines 100-110) and `get_value`
  (src/02_dem_elevation.py, lines 217-226): point sampling of a raster grid.
* the potential pipeline of `calculate_potential` / `create_potential_dataset`
  (src/03_gw_potential.py): column inference, unit conversion,
  `Potential = DEM - Depth`, row filtering and statistics.
* `calculate_percentile_class` (src/mapservice.py, lines 23-58): percentile
  bracket classification.

Python floats are modelled as exact rationals extended with a NaN element
(`F`); `float('nan')` comparisons are all false, which the boolean
comparisons `F.le` / `F.lt` reproduce.  Missing table cells (pandas NaN)
are `Option` `none` values.
-/

/-- Model of a Python float: either NaN or an exact rational value.
(The code does no rounding in the core arithmetic, so rationals are a
faithful model of the values the claims are about.) -/
inductive F where
  | nan : F
  | val : ℚ → F
deriving DecidableEq, Repr

/-- Python `x <= y` on floats: false whenever either side is NaN. -/
def F.le : F → F → Bool
  | .val a, .val b => decide (a ≤ b)
  | _, _ => false

/-- Python `x < y` on floats: false whenever either side is NaN. -/
def F.lt : F → F → Bool
  | .val a, .val b => decide (a < b)
  | _, _ => false

/-- Python `x - y` on floats: NaN-propagating subtraction. -/
def F.sub : F → F → F
  | .val a, .val b => .val (a - b)
  | _, _ => .nan

theorem F.le_iff (u w : F) : F.le u w = true ↔ ∃ a b, u = F.val a ∧ w = F.val b ∧ a ≤ b := by
  cases u <;> cases w <;> simp [F.le]

theorem F.lt_iff (u w : F) : F.lt u w = true ↔ ∃ a b, u = F.val a ∧ w = F.val b ∧ a < b := by
  cases u <;> cases w <;> simp [F.lt]

/-! ## Raster sampling (`get_dem_value`, `get_value`) -/

/-- The geographic extent `bounds` dict of a fetched raster
(src/03_gw_potential.py line 96). -/
structure Bounds where
  west : ℚ
  south : ℚ
  east : ℚ
  north : ℚ
deriving DecidableEq, Repr

/-- A raster: list of rows of float cells (NaN = no-data). -/
abbrev Grid := List (List F)

/-- `dem.shape[0]`: number of rows. -/
def Grid.nrows (g : Grid) : Nat := g.length

/-- `dem.shape[1]`: number of columns (length of the first row; numpy
arrays are rectangular). -/
def Grid.ncols (g : Grid) : Nat := (g.headD []).length

/-- Python `int(x)`: truncation toward zero. -/
def truncQ (q : ℚ) : ℤ := if 0 ≤ q then ⌊q⌋ else ⌈q⌉

/-- `np.clip(v, lo, hi)` on integers: `max` is applied before `min`,
exactly as numpy does. -/
def clipZ (v lo hi : ℤ) : ℤ := min (max v lo) hi

/-- `dem[row, col]` for in-range indices (all the uses proved about below
are in range; out-of-range access, which raises in numpy, is mapped to
NaN to keep the function total). -/
def at2d (g : Grid) (r c : ℤ) : F :=
  if 0 ≤ r ∧ 0 ≤ c then (g.getD r.toNat []).getD c.toNat F.nan else F.nan

/-- `get_dem_value` from src/03_gw_potential.py lines 100-110: bounds check
(inclusive), linear coordinate-to-index map truncated by `int(...)`,
`np.clip` into range, then direct indexing. -/
def get_dem_value (lat lon : ℚ) (dem : Grid) (b : Bounds) : F :=
  if b.west ≤ lon ∧ lon ≤ b.east ∧ b.south ≤ lat ∧ lat ≤ b.north then
    let col := truncQ ((lon - b.west) / (b.east - b.west) * (dem.ncols : ℚ))
    let row := truncQ ((b.north - lat) / (b.north - b.south) * (dem.nrows : ℚ))
    at2d dem (clipZ row 0 ((dem.nrows : ℤ) - 1)) (clipZ col 0 ((dem.ncols : ℤ) - 1))
  else F.nan

/-- `get_value` from src/02_dem_elevation.py lines 217-226 (the inner
closure of `get_dem_at_points`); its body is textually identical to
`get_dem_value`. -/
def get_value (lat lon : ℚ) (dem : Grid) (b : Bounds) : F :=
  if b.west ≤ lon ∧ lon ≤ b.east ∧ b.south ≤ lat ∧ lat ≤ b.north then
    let col := truncQ ((lon - b.west) / (b.east - b.west) * (dem.ncols : ℚ))
    let row := truncQ ((b.north - lat) / (b.north - b.south) * (dem.nrows : ℚ))
    at2d dem (clipZ row 0 ((dem.nrows : ℤ) - 1)) (clipZ col 0 ((dem.ncols : ℤ) - 1))
  else F.nan

/-- **C2.** For a point strictly inside the bounds of a non-empty grid,
`get_dem_value` equals direct array indexing at
`row = floor((north − lat) / (north − south) × num_rows)`,
`col = floor((lon − west) / (east − west) × num_cols)`: nearest-pixel
lookup with no interpolation.  Determinism of repeated calls is
immediate because `get_dem_value` is a pure function of its four
arguments. -/
theorem get_dem_value_inside (dem : Grid) (b : Bounds) (lat lon : ℚ)
    (hr : 0 < dem.nrows) (hc : 0 < dem.ncols)
    (h1 : b.west < lon) (h2 : lon < b.east)
    (h3 : b.south < lat) (h4 : lat < b.north) :
    get_dem_value lat lon dem b =
      at2d dem ⌊(b.north - lat) / (b.north - b.south) * (dem.nrows : ℚ)⌋
        ⌊(lon - b.west) / (b.east - b.west) * (dem.ncols : ℚ)⌋ := by
  have hew : (0 : ℚ) < b.east - b.west := sub_pos.mpr (h1.trans h2)
  have hns : (0 : ℚ) < b.north - b.south := sub_pos.mpr (h3.trans h4)
  have hqc0 : (0 : ℚ) ≤ (lon - b.west) / (b.east - b.west) * (dem.ncols : ℚ) :=
    mul_nonneg (div_nonneg (sub_nonneg.mpr h1.le) hew.le) (Nat.cast_nonneg _)
  have hqr0 : (0 : ℚ) ≤ (b.north - lat) / (b.north - b.south) * (dem.nrows : ℚ) :=
    mul_nonneg (div_nonneg (sub_nonneg.mpr h4.le) hns.le) (Nat.cast_nonneg _)
  have hqc1 : (lon - b.west) / (b.east - b.west) * (dem.ncols : ℚ) < (dem.ncols : ℚ) := by
    have hlt : (lon - b.west) / (b.east - b.west) < 1 :=
      (div_lt_one hew).mpr (sub_lt_sub_right h2 b.west)
    calc (lon - b.west) / (b.east - b.west) * (dem.ncols : ℚ)
        < 1 * (dem.ncols : ℚ) := by
          exact mul_lt_mul_of_pos_right hlt (by exact_mod_cast hc)
      _ = (dem.ncols : ℚ) := one_mul _
  have hqr1 : (b.north - lat) / (b.north - b.south) * (dem.nrows : ℚ) < (dem.nrows : ℚ) := by
    have hlt : (b.north - lat) / (b.north - b.south) < 1 :=
      (div_lt_one hns).mpr (by linarith)
    calc (b.north - lat) / (b.north - b.south) * (dem.nrows : ℚ)
        < 1 * (dem.nrows : ℚ) := by
          exact mul_lt_mul_of_pos_right hlt (by exact_mod_cast hr)
      _ = (dem.nrows : ℚ) := one_mul _
  have hfc0 : (0 : ℤ) ≤ ⌊(lon - b.west) / (b.east - b.west) * (dem.ncols : ℚ)⌋ :=
    Int.floor_nonneg.mpr hqc0
  have hfr0 : (0 : ℤ) ≤ ⌊(b.north - lat) / (b.north - b.south) * (dem.nrows : ℚ)⌋ :=
    Int.floor_nonneg.mpr hqr0
  have hfc1 : ⌊(lon - b.west) / (b.east - b.west) * (dem.ncols : ℚ)⌋ < (dem.ncols : ℤ) :=
    Int.floor_lt.mpr (by exact_mod_cast hqc1)
  have hfr1 : ⌊(b.north - lat) / (b.north - b.south) * (dem.nrows : ℚ)⌋ < (dem.nrows : ℤ) :=
    Int.floor_lt.mpr (by exact_mod_cast hqr1)
  have hcond : b.west ≤ lon ∧ lon ≤ b.east ∧ b.south ≤ lat ∧ lat ≤ b.north :=
    ⟨h1.le, h2.le, h3.le, h4.le⟩
  unfold get_dem_value
  rw [if_pos hcond]
  have htc : truncQ ((lon - b.west) / (b.east - b.west) * (dem.ncols : ℚ)) =
      ⌊(lon - b.west) / (b.east - b.west) * (dem.ncols : ℚ)⌋ := if_pos hqc0
  have htr : truncQ ((b.north - lat) / (b.north - b.south) * (dem.nrows : ℚ)) =
      ⌊(b.north - lat) / (b.north - b.south) * (dem.nrows : ℚ)⌋ := if_pos hqr0
  rw [htc, htr]
  have hm1 : ⌊(b.north - lat) / (b.north - b.south) * (dem.nrows : ℚ)⌋ ⊔ 0 =
      ⌊(b.north - lat) / (b.north - b.south) * (dem.nrows : ℚ)⌋ := sup_eq_left.mpr hfr0
  have hm2 : ⌊(b.north - lat) / (b.north - b.south) * (dem.nrows : ℚ)⌋ ⊓ ((dem.nrows : ℤ) - 1) =
      ⌊(b.north - lat) / (b.north - b.south) * (dem.nrows : ℚ)⌋ := inf_eq_left.mpr (by omega)
  have hm3 : ⌊(lon - b.west) / (b.east - b.west) * (dem.ncols : ℚ)⌋ ⊔ 0 =
      ⌊(lon - b.west) / (b.east - b.west) * (dem.ncols : ℚ)⌋ := sup_eq_left.mpr hfc0
  have hm4 : ⌊(lon - b.west) / (b.east - b.west) * (dem.ncols : ℚ)⌋ ⊓ ((dem.ncols : ℤ) - 1) =
      ⌊(lon - b.west) / (b.east - b.west) * (dem.ncols : ℚ)⌋ := inf_eq_left.mpr (by omega)
  simp only [clipZ, max_eq_left, min_eq_left, hm1, hm2, hm3, hm4]

/-- Witness for C2 on a concrete 2×2 grid. -/
theorem get_dem_value_inside_witness :
    get_dem_value (1/2) (3/2) [[F.val 1, F.val 2], [F.val 3, F.val 4]] ⟨0, 0, 2, 2⟩ =
      at2d [[F.val 1, F.val 2], [F.val 3, F.val 4]]
        ⌊((2 : ℚ) - 1/2) / (2 - 0) * (2 : ℚ)⌋ ⌊((3/2 : ℚ) - 0) / (2 - 0) * (2 : ℚ)⌋ :=
  get_dem_value_inside [[F.val 1, F.val 2], [F.val 3, F.val 4]] ⟨0, 0, 2, 2⟩ (1/2) (3/2)
    (by decide) (by decide) (by norm_num) (by norm_num) (by norm_num) (by norm_num)

theorem truncQ_zero : truncQ 0 = 0 := by simp [truncQ]

theorem truncQ_natCast (n : ℕ) : truncQ (n : ℚ) = n := by simp [truncQ]

theorem clipZ_zero (k : ℤ) (h : 0 ≤ k) : clipZ 0 0 k = 0 := by
  unfold clipZ
  rw [max_self, min_eq_left h]

theorem clipZ_top (n : ℤ) (h : 1 ≤ n) : clipZ n 0 (n - 1) = n - 1 := by
  unfold clipZ
  rw [max_eq_left (by omega), min_eq_right (by omega)]

/-- **C3.** Points outside the inclusive bounds sample to NaN; the exact
northwest corner `(lat, lon) = (north, west)` samples pixel `(0, 0)` and
the exact southeast corner `(south, east)` samples pixel
`(num_rows − 1, num_cols − 1)`: the computed indices are clamped into
range, never out-of-range. -/
theorem get_dem_value_bounds_policy (dem : Grid) (b : Bounds)
    (hr : 0 < dem.nrows) (hc : 0 < dem.ncols)
    (hwe : b.west < b.east) (hsn : b.south < b.north) :
    (∀ lat lon : ℚ, ¬(b.west ≤ lon ∧ lon ≤ b.east ∧ b.south ≤ lat ∧ lat ≤ b.north) →
        get_dem_value lat lon dem b = F.nan) ∧
    get_dem_value b.north b.west dem b = at2d dem 0 0 ∧
    get_dem_value b.south b.east dem b =
      at2d dem ((dem.nrows : ℤ) - 1) ((dem.ncols : ℤ) - 1) := by
  refine ⟨?_, ?_, ?_⟩
  · intro lat lon h
    unfold get_dem_value
    rw [if_neg h]
  · unfold get_dem_value
    rw [if_pos ⟨le_refl _, hwe.le, hsn.le, le_refl _⟩]
    simp only [sub_self, zero_div, zero_mul, truncQ_zero]
    rw [clipZ_zero _ (by omega), clipZ_zero _ (by omega)]
  · have hew : b.east - b.west ≠ 0 := ne_of_gt (sub_pos.mpr hwe)
    have hns : b.north - b.south ≠ 0 := ne_of_gt (sub_pos.mpr hsn)
    unfold get_dem_value
    rw [if_pos ⟨hwe.le, le_refl _, le_refl _, hsn.le⟩]
    rw [div_self hew, div_self hns, one_mul, one_mul, truncQ_natCast, truncQ_natCast]
    show at2d dem (clipZ (dem.nrows : ℤ) 0 ((dem.nrows : ℤ) - 1))
        (clipZ (dem.ncols : ℤ) 0 ((dem.ncols : ℤ) - 1)) =
      at2d dem ((dem.nrows : ℤ) - 1) ((dem.ncols : ℤ) - 1)
    rw [clipZ_top _ (by omega), clipZ_top _ (by omega)]

/-- Witness for C3: concrete 2×2 grid over bounds `[0,2] × [0,2]`. -/
theorem get_dem_value_bounds_policy_witness :
    get_dem_value 5 5 [[F.val 1, F.val 2], [F.val 3, F.val 4]] ⟨0, 0, 2, 2⟩ = F.nan ∧
    get_dem_value 2 0 [[F.val 1, F.val 2], [F.val 3, F.val 4]] ⟨0, 0, 2, 2⟩ =
      at2d [[F.val 1, F.val 2], [F.val 3, F.val 4]] 0 0 ∧
    get_dem_value 0 2 [[F.val 1, F.val 2], [F.val 3, F.val 4]] ⟨0, 0, 2, 2⟩ =
      at2d [[F.val 1, F.val 2], [F.val 3, F.val 4]]
        (((Grid.nrows [[F.val 1, F.val 2], [F.val 3, F.val 4]] : ℤ)) - 1)
        (((Grid.ncols [[F.val 1, F.val 2], [F.val 3, F.val 4]] : ℤ)) - 1) :=
  ⟨(get_dem_value_bounds_policy _ ⟨0, 0, 2, 2⟩ (by decide) (by decide) (by norm_num)
      (by norm_num)).1 5 5 (by norm_num),
   (get_dem_value_bounds_policy _ ⟨0, 0, 2, 2⟩ (by decide) (by decide) (by norm_num)
      (by norm_num)).2.1,
   (get_dem_value_bounds_policy _ ⟨0, 0, 2, 2⟩ (by decide) (by decide) (by norm_num)
      (by norm_num)).2.2⟩

/-- **C10.** The two point-sampling implementations — `get_value` in
src/02_dem_elevation.py and `get_dem_value` in src/03_gw_potential.py —
agree on every grid, every bounds with `west < east` and `south < north`,
and every coordinate (their bodies are textually identical). -/
theorem get_value_eq_get_dem_value (dem : Grid) (b : Bounds) (lat lon : ℚ)
    (hwe : b.west < b.east) (hsn : b.south < b.north) :
    get_value lat lon dem b = get_dem_value lat lon dem b := rfl

/-- Witness for C10 at a concrete grid, bounds and point. -/
theorem get_value_eq_get_dem_value_witness :
    get_value 1 1 [[F.val 7]] ⟨0, 0, 2, 2⟩ = get_dem_value 1 1 [[F.val 7]] ⟨0, 0, 2, 2⟩ :=
  get_value_eq_get_dem_value [[F.val 7]] ⟨0, 0, 2, 2⟩ 1 1 (by norm_num) (by norm_num)

/-! ## Potential pipeline (`calculate_potential` / `create_potential_dataset`) -/

/-- Python `str.lower()` (exact for the ASCII unit strings in play;
written over the character list so that it evaluates by `decide`). -/
def strLower (s : String) : String := ⟨s.data.map Char.toLower⟩

/-- The unit conversion inlined in `calculate_potential` (lines 166-169)
and `create_potential_dataset` (lines 281-284):
`if depth_unit.lower() == 'ft': Depth_m = Depth_original * 0.3048
else: Depth_m = Depth_original`.  Note there is no error branch: any unit
other than (case-insensitive) `'ft'` leaves the value unchanged. -/
def convertDepth (unit : String) (d0 : ℚ) : ℚ :=
  if strLower unit == "ft" then d0 * 0.3048 else d0

/-- One input row of the depth table: the `Lat`, `Lon` and selected depth
cells.  `none` models a missing cell / pandas NaN (dropped by `dropna`). -/
structure Row where
  lat : Option ℚ
  lon : Option ℚ
  depth : Option ℚ
deriving DecidableEq, Repr

/-- One surviving output record `{Lat, Lon, Depth_m, DEM_m, Potential_m}`. -/
structure PRecord where
  lat : ℚ
  lon : ℚ
  depth_m : ℚ
  dem_m : ℚ
  potential_m : ℚ
deriving DecidableEq, Repr

/-- The row-wise pipeline of `create_potential_dataset` lines 277-293 (and
identically `calculate_potential` lines 161-180), stage by stage:
`dropna` over the three selected columns, unit conversion, per-row
`get_dem_value`, `Potential_m = DEM_m - Depth_m` (NaN-propagating), and a
second `dropna` removing rows whose DEM sample (hence potential) is NaN. -/
def create_potential_records (rows : List Row) (unit : String) (dem : Grid) (b : Bounds) :
    List PRecord :=
  let s1 := rows.filterMap (fun r =>
    match r.lat, r.lon, r.depth with
    | some la, some lo, some d0 => some (la, lo, d0)
    | _, _, _ => none)
  let s2 := s1.map (fun x => (x.1, x.2.1, convertDepth unit x.2.2))
  let s3 := s2.map (fun x => (x.1, x.2.1, x.2.2, get_dem_value x.1 x.2.1 dem b))
  let s4 := s3.map (fun x => (x.1, x.2.1, x.2.2.1, x.2.2.2, F.sub x.2.2.2 (F.val x.2.2.1)))
  s4.filterMap (fun x =>
    match x.2.2.2.1, x.2.2.2.2 with
    | F.val e, F.val p => some ⟨x.1, x.2.1, x.2.2.1, e, p⟩
    | _, _ => none)

/-- The per-row outcome of the pipeline: the record produced from one
input row, or `none` when the row is dropped (missing cell, or NaN DEM
sample).  Derived from the same source lines as
`create_potential_records`; the theorem below proves the staged,
column-wise pipeline equals this row-wise map. -/
def rowRecord (unit : String) (dem : Grid) (b : Bounds) (r : Row) : Option PRecord :=
  match r.lat, r.lon, r.depth with
  | some la, some lo, some d0 =>
    match get_dem_value la lo dem b with
    | F.val e => some ⟨la, lo, convertDepth unit d0, e, e - convertDepth unit d0⟩
    | F.nan => none
  | _, _, _ => none

/-- A numeric field of the JSON response: a number, the float NaN
(serialized by `json.dumps` as `NaN`), or JSON `null`. -/
inductive JNum where
  | num : ℚ → JNum
  | nan : JNum
  | null : JNum
deriving DecidableEq, Repr

/-- Python `round` to an integer: round-half-to-even. -/
def roundHalfEven (q : ℚ) : ℤ :=
  if q - ⌊q⌋ < 1/2 then ⌊q⌋
  else if 1/2 < q - ⌊q⌋ then ⌊q⌋ + 1
  else if ⌊q⌋ % 2 = 0 then ⌊q⌋ else ⌊q⌋ + 1

/-- `round(x, 2)` as used on the statistics (the model rounds the exact
rational; the claims proved here depend only on which fields are NaN,
never on the rounded digits). -/
def round2 (q : ℚ) : ℚ := (roundHalfEven (q * 100) : ℚ) / 100

/-- `round(series.min(), 2)`: pandas `min` of an empty series is NaN. -/
def statMin (l : List ℚ) : JNum :=
  match l with
  | [] => .nan
  | x :: xs => .num (round2 (xs.foldl min x))

/-- `round(series.max(), 2)`: pandas `max` of an empty series is NaN. -/
def statMax (l : List ℚ) : JNum :=
  match l with
  | [] => .nan
  | x :: xs => .num (round2 (xs.foldl max x))

/-- `round(series.mean(), 2)`: pandas `mean` of an empty series is NaN. -/
def statMean (l : List ℚ) : JNum :=
  match l with
  | [] => .nan
  | _ => .num (round2 ((l.foldl (· + ·) 0) / (l.length : ℚ)))

/-- The `{min, max, mean}` statistics block of the JSON response. -/
structure Stats where
  smin : JNum
  smax : JNum
  smean : JNum
deriving DecidableEq, Repr

def statsOf (l : List ℚ) : Stats := ⟨statMin l, statMax l, statMean l⟩

/-- `'-' in str(c) and len(str(c)) == 10`: the date-like column test of
the auto-detection in `calculate_potential` line 148 and
`create_potential_dataset` line 265 (membership tested on the character
list so that it evaluates by `decide`). -/
def dateLike (c : String) : Bool := c.data.contains '-' && c.length == 10

/-- Depth-column auto-detection (lines 146-155 / 264-271): take the last
(in table column order) date-like column; otherwise the first numeric
column not in `[lat_col, lon_col, 'Site']`; `none` when neither rule
yields a candidate (the Python code then raises `IndexError` on `[...][0]`,
caught by the surrounding handler into an error response).
`numericCols` models `df.select_dtypes(include=[np.number]).columns`. -/
def infer_depth_col (cols numericCols : List String) (latCol lonCol : String) :
    Option String :=
  match (cols.filter dateLike).getLast? with
  | some c => some c
  | none => (numericCols.filter (fun c => !([latCol, lonCol, "Site"].contains c))).head?

/-- The fatal error kinds of the dataset computation (spec §7). The
column-inference failure is realized in the source as the `IndexError`
escaping lines 155/271 into the `except` handler, which replaces the
whole result with an error response. -/
inductive PipelineError where
  | columnInference : PipelineError
deriving DecidableEq, Repr

/-- The successful JSON response of `create_potential_dataset`
(lines 307-334): the surviving records, `total_points`, and the
min/max/mean statistics over `Depth_m`, `DEM_m`, `Potential_m`. -/
structure DatasetOutput where
  records : List PRecord
  total_points : Nat
  stats_depth : Stats
  stats_dem : Stats
  stats_potential : Stats
deriving DecidableEq, Repr

/-- `create_potential_dataset` (src/03_gw_potential.py lines 228-334,
identically `calculate_potential` lines 113-225 up to the extra output
columns): resolve the depth column (explicit or inferred; failure aborts
the whole computation with no partial result), then run the row pipeline
and report the statistics. -/
def create_potential_dataset (cols numericCols : List String) (depthCol : Option String)
    (latCol lonCol : String) (rows : List Row) (unit : String) (dem : Grid) (b : Bounds) :
    Except PipelineError DatasetOutput :=
  match depthCol.orElse (fun _ => infer_depth_col cols numericCols latCol lonCol) with
  | none => .error .columnInference
  | some _ =>
    let recs := create_potential_records rows unit dem b
    .ok ⟨recs, recs.length,
      statsOf (recs.map (·.depth_m)),
      statsOf (recs.map (·.dem_m)),
      statsOf (recs.map (·.potential_m))⟩

theorem create_potential_records_eq (rows : List Row) (unit : String) (dem : Grid)
    (b : Bounds) :
    create_potential_records rows unit dem b = rows.filterMap (rowRecord unit dem b) := by
  unfold create_potential_records
  simp only [List.map_map, List.map_filterMap, List.filterMap_filterMap, List.filterMap_map]
  congr 1
  funext r
  rcases r with ⟨la?, lo?, d?⟩
  cases la? <;> cases lo? <;> cases d? <;> simp only [rowRecord] <;> try rfl
  rename_i la lo d0
  cases hE : get_dem_value la lo dem b <;>
    simp [F.sub, hE, Function.comp, Option.map, Option.bind]

/-- **C1.** The records produced by the dataset computation are exactly
the per-row outcomes in input row order (`filterMap`: dropped rows are
simply absent, no placeholder); every surviving record satisfies
`Potential_m = DEM_m − Depth_m` exactly (no rounding is applied to the
records, only to the reported statistics); a row with a missing (NaN)
lat, lon or depth cell is dropped, and a row whose DEM sample is NaN is
dropped. -/
theorem create_potential_records_spec (rows : List Row) (unit : String) (dem : Grid)
    (b : Bounds) :
    create_potential_records rows unit dem b = rows.filterMap (rowRecord unit dem b) ∧
    (∀ rec ∈ create_potential_records rows unit dem b,
        rec.potential_m = rec.dem_m - rec.depth_m) ∧
    (∀ r : Row, (r.lat = none ∨ r.lon = none ∨ r.depth = none) →
        rowRecord unit dem b r = none) ∧
    (∀ la lo d0 : ℚ, get_dem_value la lo dem b = F.nan →
        rowRecord unit dem b ⟨some la, some lo, some d0⟩ = none) := by
  refine ⟨create_potential_records_eq rows unit dem b, ?_, ?_, ?_⟩
  · intro rec hrec
    rw [create_potential_records_eq] at hrec
    obtain ⟨r, -, he⟩ := List.mem_filterMap.mp hrec
    rcases r with ⟨la?, lo?, d?⟩
    cases la? <;> cases lo? <;> cases d? <;> simp only [rowRecord] at he <;> try exact absurd he (by simp)
    rename_i la lo d0
    cases hE : get_dem_value la lo dem b <;> rw [hE] at he
    · exact absurd he (by simp)
    · rename_i e
      have : rec = ⟨la, lo, convertDepth unit d0, e, e - convertDepth unit d0⟩ :=
        (Option.some_inj.mp he).symm
      rw [this]
  · intro r h
    rcases r with ⟨la?, lo?, d?⟩
    cases la? <;> cases lo? <;> cases d? <;> first | rfl | simp at h
  · intro la lo d0 hE
    simp only [rowRecord, hE]

/-- Witness for C1: a row with a missing latitude cell is dropped. -/
theorem create_potential_records_spec_witness :
    rowRecord "ft" [[F.val 7]] ⟨0, 0, 2, 2⟩ ⟨none, some 1, some 2⟩ = none :=
  (create_potential_records_spec [] "ft" [[F.val 7]] ⟨0, 0, 2, 2⟩).2.2.1
    ⟨none, some 1, some 2⟩ (Or.inl rfl)

/-- **C5 counterexample.** The conversion does not fail on an
unrecognized unit: `'furlong'` is not `'ft'` and not a meters
designation, yet the value is produced unchanged (the code has no
`InvalidUnitError` branch at all — anything other than case-insensitive
`'ft'` falls into the `else` arm). -/
theorem convertDepth_unknown_unit_cex : convertDepth "furlong" 100 = 100 := by rfl

/-- **C5 (amended).** A unit whose lowercase form is `'ft'` multiplies
the value by 0.3048; any other unit string — `'m'`, but also any
unrecognized unit — leaves the value unchanged; no error is ever
raised. -/
theorem convertDepth_policy (v : ℚ) (unit : String) :
    (strLower unit = "ft" → convertDepth unit v = v * 0.3048) ∧
    (strLower unit ≠ "ft" → convertDepth unit v = v) := by
  constructor
  · intro h
    simp [convertDepth, h]
  · intro h
    simp [convertDepth, h]

/-- Witness for C5 (amended): feet are scaled, an unknown unit is not. -/
theorem convertDepth_policy_witness :
    convertDepth "FT" 100 = 100 * 0.3048 ∧ convertDepth "furlongs" 2 = 2 :=
  ⟨(convertDepth_policy 100 "FT").1 (by decide),
   (convertDepth_policy 2 "furlongs").2 (by decide)⟩

/-- **C6 counterexample.** With date columns listed most-recent-first,
auto-detection returns `'2023-01-15'` (the last date-like column in
table order), not the lexicographically last `'2023-06-20'` the claim
requires. -/
theorem infer_depth_col_order_cex :
    infer_depth_col ["Lat", "Lon", "Site", "2023-06-20", "2023-01-15"] ["Lat", "Lon"]
      "Lat" "Lon" = some "2023-01-15" ∧ ("2023-01-15" : String) ≠ "2023-06-20" := by
  constructor
  · rfl
  · decide

/-- **C6 (amended).** Column inference prefers columns whose name has
length 10 and contains a `'-'` (this includes every `YYYY-MM-DD` name
but is not restricted to that pattern), and when several such columns
exist it selects the one appearing **last in the table's column order**
— which is the most recent date only when the date columns appear in
chronological order. -/
theorem infer_depth_col_picks_last_datelike (cols numericCols : List String)
    (latCol lonCol d : String) (hd : dateLike d = true) (hmem : d ∈ cols) :
    ∃ c, infer_depth_col cols numericCols latCol lonCol = some c ∧
      dateLike c = true ∧ c ∈ cols ∧ (cols.filter dateLike).getLast? = some c := by
  have hmemf : d ∈ cols.filter dateLike := List.mem_filter.mpr ⟨hmem, hd⟩
  have hne : cols.filter dateLike ≠ [] := by
    intro h0
    rw [h0] at hmemf
    exact absurd hmemf (List.not_mem_nil d)
  cases hL : (cols.filter dateLike).getLast? with
  | none =>
    exact absurd (List.getLast?_eq_none_iff.mp hL) hne
  | some c =>
    have hcf : c ∈ cols.filter dateLike := by
      rw [List.getLast?_eq_getElem?] at hL
      exact List.getElem?_mem hL
    refine ⟨c, ?_, ?_, ?_, rfl⟩
    · unfold infer_depth_col
      rw [hL]
    · exact (List.mem_filter.mp hcf).2
    · exact (List.mem_filter.mp hcf).1

/-- Witness for C6 (amended): with date columns in chronological order
the last one is picked (matching the spec's own example). -/
theorem infer_depth_col_picks_last_datelike_witness :
    ∃ c, infer_depth_col ["Lat", "Lon", "Site", "2023-01-15", "2023-06-20"] ["Lat", "Lon"]
        "Lat" "Lon" = some c ∧
      dateLike c = true ∧ c ∈ ["Lat", "Lon", "Site", "2023-01-15", "2023-06-20"] ∧
      (["Lat", "Lon", "Site", "2023-01-15", "2023-06-20"].filter dateLike).getLast? = some c :=
  infer_depth_col_picks_last_datelike _ ["Lat", "Lon"] "Lat" "Lon" "2023-01-15"
    (by decide) (by decide)

/-- **C7.** When no column is date-like and no numeric column survives
the reserved-column exclusion, the dataset computation fails with the
column-inference error and produces no partial result.  (In the source
the failure is the `IndexError` raised by `[...][0]` on line 271/155,
escaping to the `except` handler which replaces the entire response with
an error object.) -/
theorem create_potential_dataset_inference_error (cols numericCols : List String)
    (latCol lonCol : String) (rows : List Row) (unit : String) (dem : Grid) (b : Bounds)
    (hdate : cols.filter dateLike = [])
    (hnum : numericCols.filter (fun c => !([latCol, lonCol, "Site"].contains c)) = []) :
    create_potential_dataset cols numericCols none latCol lonCol rows unit dem b =
      .error .columnInference := by
  have hinf : infer_depth_col cols numericCols latCol lonCol = none := by
    unfold infer_depth_col
    rw [hdate, hnum]
    rfl
  unfold create_potential_dataset
  simp [Option.orElse, hinf]

/-- Witness for C7 on a concrete table with no candidate column. -/
theorem create_potential_dataset_inference_error_witness :
    create_potential_dataset ["Lat", "Lon", "Site"] ["Lat", "Lon"] none "Lat" "Lon"
        [] "ft" [[F.val 7]] ⟨0, 0, 2, 2⟩ = .error .columnInference :=
  create_potential_dataset_inference_error ["Lat", "Lon", "Site"] ["Lat", "Lon"]
    "Lat" "Lon" [] "ft" [[F.val 7]] ⟨0, 0, 2, 2⟩ (by decide) (by decide)

/-- **C8 counterexample.** A run in which the only observation lies
outside the raster's coverage: zero records survive, the computation
still succeeds, but the reported statistics are the float NaN
(`json.dumps` serializes them as `NaN`), not JSON `null` as the claim
states — pandas `min`/`max`/`mean` of an empty series is NaN and
`round(nan, 2)` is NaN. -/
theorem create_potential_dataset_empty_stats_cex :
    create_potential_dataset ["Lat", "Lon", "W"] ["Lat", "Lon", "W"] (some "W") "Lat" "Lon"
        [⟨some 50, some 50, some 3⟩] "ft" [[F.val 7]] ⟨0, 0, 2, 2⟩ =
      .ok ⟨[], 0, ⟨.nan, .nan, .nan⟩, ⟨.nan, .nan, .nan⟩, ⟨.nan, .nan, .nan⟩⟩ ∧
    JNum.nan ≠ JNum.null := by
  constructor
  · rfl
  · decide

/-- **C8 (amended).** For every input on which zero records survive
filtering (and the depth column is resolved), the dataset computation
still succeeds — not an error — and reports the min/max/mean statistics
of `Depth_m`, `DEM_m` and `Potential_m` as the undefined float NaN
(serialized `NaN`, not `null`). -/
theorem create_potential_dataset_empty_stats (cols numericCols : List String)
    (dc : Option String) (latCol lonCol dcol : String) (rows : List Row) (unit : String)
    (dem : Grid) (b : Bounds)
    (hcol : dc.orElse (fun _ => infer_depth_col cols numericCols latCol lonCol) = some dcol)
    (hempty : create_potential_records rows unit dem b = []) :
    create_potential_dataset cols numericCols dc latCol lonCol rows unit dem b =
      .ok ⟨[], 0, ⟨.nan, .nan, .nan⟩, ⟨.nan, .nan, .nan⟩, ⟨.nan, .nan, .nan⟩⟩ := by
  unfold create_potential_dataset
  rw [hcol]
  simp [hempty, statsOf, statMin, statMax, statMean]

/-- Witness for C8 (amended) on a concrete out-of-coverage observation. -/
theorem create_potential_dataset_empty_stats_witness :
    create_potential_dataset ["Lat", "Lon", "V"] ["Lat", "Lon", "V"] (some "V") "Lat" "Lon"
        [⟨some 9, some 9, some 1⟩] "m" [[F.val 5]] ⟨0, 0, 2, 2⟩ =
      .ok ⟨[], 0, ⟨.nan, .nan, .nan⟩, ⟨.nan, .nan, .nan⟩, ⟨.nan, .nan, .nan⟩⟩ :=
  create_potential_dataset_empty_stats ["Lat", "Lon", "V"] ["Lat", "Lon", "V"] (some "V")
    "Lat" "Lon" "V" [⟨some 9, some 9, some 1⟩] "m" [[F.val 5]] ⟨0, 0, 2, 2⟩ rfl (by rfl)

/-! ## Percentile classification (`calculate_percentile_class`) -/

theorem F.le_nan_right (x : F) : F.le x F.nan = false := by cases x <;> rfl

theorem F.lt_nan_right (x : F) : F.lt x F.nan = false := by cases x <;> rfl

theorem F.lt_nan_left (x : F) : F.lt F.nan x = false := by cases x <;> rfl

/-- The per-site percentile boundary record (`pct_data` dict keys read in
src/mapservice.py lines 29-37); `none` models an absent (`None`) value. -/
structure PctData where
  pct_lowest : Option F
  pct_10 : Option F
  pct_25 : Option F
  pct_50 : Option F
  pct_75 : Option F
  pct_90 : Option F
  pct_highest : Option F
deriving DecidableEq, Repr

/-- The `boundaries` list of src/mapservice.py lines 29-37, in source
order (ascending rank). -/
def boundariesOf (p : PctData) : List (Nat × Option F) :=
  [(0, p.pct_lowest), (10, p.pct_10), (25, p.pct_25), (50, p.pct_50),
   (75, p.pct_75), (90, p.pct_90), (100, p.pct_highest)]

/-- `valid = [(p, v) for p, v in boundaries if v is not None]`
(src/mapservice.py line 40). -/
def validOf (p : PctData) : List (Nat × F) :=
  (boundariesOf p).filterMap (fun pv => pv.2.map (fun v => (pv.1, v)))

/-- `f"{p1}-{p2}"` of src/mapservice.py line 50. -/
def bracketLabel (p1 p2 : Nat) : String := toString p1 ++ "-" ++ toString p2

/-- The interval walk of src/mapservice.py lines 45-50: scan adjacent
valid anchor pairs in order and return on the first pair whose bracket
contains the depth (`v2 <= depth <= v1`), with rank estimate
`(p1 + p2) // 2`. -/
def findBracket (d : F) : List (Nat × F) → Option (String × Nat)
  | (p1, v1) :: (p2, v2) :: rest =>
    if F.le v2 d && F.le d v1 then some (bracketLabel p1 p2, (p1 + p2) / 2)
    else findBracket d ((p2, v2) :: rest)
  | _ => none

/-- `calculate_percentile_class` from src/mapservice.py lines 23-58:
`None` depth short-circuits; fewer than 2 valid anchors yields
`(None, None)`; otherwise the bracket walk, then the two edge checks
(`depth > valid[0][1]` → `"<rank0"`, 0; `depth < valid[-1][1]` →
`">rank_last"`, 100), and finally `(None, None)`. -/
def calculate_percentile_class (depth : Option F) (pct : PctData) :
    Option String × Option Nat :=
  match depth with
  | none => (none, none)
  | some d =>
    match validOf pct with
    | (p0, v0) :: (p1, v1) :: rest =>
      match findBracket d ((p0, v0) :: (p1, v1) :: rest) with
      | some r => (some r.1, some r.2)
      | none =>
        if F.lt v0 d then (some ("<" ++ toString p0), some 0)
        else
          let lastPair := ((p1, v1) :: rest).getLastD (p1, v1)
          if F.lt d lastPair.2 then (some (">" ++ toString lastPair.1), some 100)
          else (none, none)
    | _ => (none, none)

theorem band_eq_false_of_not_both {x y : Bool} (h : ¬(x = true ∧ y = true)) :
    (x && y) = false := by
  cases x <;> cases y <;> simp_all

theorem findBracket_cons_cons (d : F) (p1 p2 : Nat) (v1 v2 : F) (rest : List (Nat × F)) :
    findBracket d ((p1, v1) :: (p2, v2) :: rest) =
      if F.le v2 d && F.le d v1 then some (bracketLabel p1 p2, (p1 + p2) / 2)
      else findBracket d ((p2, v2) :: rest) := rfl

theorem findBracket_eq_none (d : F) :
    ∀ l : List (Nat × F),
      (∀ (j q1 q2 : Nat) (w1 w2 : F), l[j]? = some (q1, w1) →
        l[j + 1]? = some (q2, w2) → ¬(F.le w2 d = true ∧ F.le d w1 = true)) →
      findBracket d l = none := by
  intro l
  induction l with
  | nil => intro _; rfl
  | cons a t ih =>
    intro h
    cases t with
    | nil => rfl
    | cons b t2 =>
      rcases a with ⟨pa, va⟩
      rcases b with ⟨pb, vb⟩
      have h0 := h 0 pa pb va vb (by simp) (by simp)
      have hcond : (F.le vb d && F.le d va) = false := band_eq_false_of_not_both h0
      have hstep : findBracket d ((pa, va) :: (pb, vb) :: t2) =
          findBracket d ((pb, vb) :: t2) := by
        rw [findBracket_cons_cons, hcond]
        simp
      rw [hstep]
      exact ih (fun j q1 q2 w1 w2 hj1 hj2 =>
        h (j + 1) q1 q2 w1 w2 (by simpa using hj1) (by simpa using hj2))

theorem findBracket_eq_of_first_match (d : F) :
    ∀ (l : List (Nat × F)) (i p1 p2 : Nat) (v1 v2 : F),
      l[i]? = some (p1, v1) → l[i + 1]? = some (p2, v2) →
      F.le v2 d = true → F.le d v1 = true →
      (∀ (j q1 q2 : Nat) (w1 w2 : F), j < i → l[j]? = some (q1, w1) →
        l[j + 1]? = some (q2, w2) → ¬(F.le w2 d = true ∧ F.le d w1 = true)) →
      findBracket d l = some (bracketLabel p1 p2, (p1 + p2) / 2) := by
  intro l
  induction l with
  | nil =>
    intro i p1 p2 v1 v2 h1 _ _ _ _
    simp at h1
  | cons a t ih =>
    intro i p1 p2 v1 v2 h1 h2 hle1 hle2 hmin
    cases t with
    | nil =>
      obtain ⟨hb, -⟩ := List.getElem?_eq_some_iff.mp h2
      simp at hb
    | cons b t2 =>
      rcases a with ⟨pa, va⟩
      rcases b with ⟨pb, vb⟩
      cases i with
      | zero =>
        simp at h1 h2
        obtain ⟨hp1, hv1⟩ := h1
        obtain ⟨hp2, hv2⟩ := h2
        subst hp1; subst hv1; subst hp2; subst hv2
        rw [findBracket_cons_cons]
        simp [hle1, hle2]
      | succ n =>
        have h0 := hmin 0 pa pb va vb (Nat.succ_pos n) (by simp) (by simp)
        have hcond : (F.le vb d && F.le d va) = false := band_eq_false_of_not_both h0
        have hstep : findBracket d ((pa, va) :: (pb, vb) :: t2) =
            findBracket d ((pb, vb) :: t2) := by
          rw [findBracket_cons_cons, hcond]
          simp
        rw [hstep]
        exact ih n p1 p2 v1 v2 (by simpa using h1) (by simpa using h2) hle1 hle2
          (fun j q1 q2 w1 w2 hj hj1 hj2 =>
            hmin (j + 1) q1 q2 w1 w2 (by omega) (by simpa using hj1) (by simpa using hj2))

theorem pairwise_getElem_opt {α : Type} {R : α → α → Prop} {l : List α} (h : l.Pairwise R)
    {i j : Nat} {a b : α} (hij : i < j) (ha : l[i]? = some a) (hb : l[j]? = some b) :
    R a b := by
  obtain ⟨hib, hie⟩ := List.getElem?_eq_some_iff.mp ha
  obtain ⟨hjb, hje⟩ := List.getElem?_eq_some_iff.mp hb
  have hr := List.pairwise_iff_getElem.mp h i j hib hjb hij
  rwa [hie, hje] at hr

/-- **C4 counterexample.** On the spec's own example table, the value 18
equals the rank-25 anchor, so it lies in the bracket of the adjacent
valid pair `(25, 18), (50, 12)` (`12 ≤ 18 ≤ 18`), yet `classify`
returns `("10-25", 17)` — the walk already returned at the earlier pair
`(10, 25), (25, 18)` — not the `("25-50", 37)` the claim requires for
that pair. -/
theorem calculate_percentile_class_tie_cex :
    validOf ⟨some (F.val 40), some (F.val 25), some (F.val 18), some (F.val 12),
        some (F.val 8), some (F.val 5), some (F.val 2)⟩ =
      [(0, F.val 40), (10, F.val 25), (25, F.val 18), (50, F.val 12), (75, F.val 8),
       (90, F.val 5), (100, F.val 2)] ∧
    F.le (F.val 12) (F.val 18) = true ∧ F.le (F.val 18) (F.val 18) = true ∧
    calculate_percentile_class (some (F.val 18))
        ⟨some (F.val 40), some (F.val 25), some (F.val 18), some (F.val 12),
         some (F.val 8), some (F.val 5), some (F.val 2)⟩ = (some "10-25", some 17) ∧
    ((some "10-25" : Option String), (some 17 : Option Nat)) ≠ (some "25-50", some 37) := by
  refine ⟨by decide, by decide, by decide, by decide, by decide⟩

/-- **C4 (amended).** For a boundary table whose valid anchors have
non-increasing values (the §3 data-model invariant) and a value:
(1) if the value lies in the bracket of the adjacent valid pair at index
`i` and in no earlier pair's bracket — ties at a shared anchor value
resolve to the earliest (deepest) matching pair — `classify` returns
label `"{rank_i}-{rank_{i+1}}"` and rank estimate
`floor((rank_i + rank_{i+1}) / 2)`;
(2) if the value strictly exceeds the first (worst) anchor's value it
returns `"<{rank_0}"` with rank 0;
(3) if the value is strictly smaller than the last (best) anchor's value
it returns `">{rank_last}"` with rank 100. -/
theorem calculate_percentile_class_policy (pct : PctData) (d : F)
    (hmono : List.Pairwise (fun a b => F.le b.2 a.2 = true) (validOf pct)) :
    (∀ (i p1 p2 : Nat) (v1 v2 : F),
        (validOf pct)[i]? = some (p1, v1) → (validOf pct)[i + 1]? = some (p2, v2) →
        F.le v2 d = true → F.le d v1 = true →
        (∀ (j q1 q2 : Nat) (w1 w2 : F), j < i → (validOf pct)[j]? = some (q1, w1) →
          (validOf pct)[j + 1]? = some (q2, w2) →
          ¬(F.le w2 d = true ∧ F.le d w1 = true)) →
        calculate_percentile_class (some d) pct =
          (some (bracketLabel p1 p2), some ((p1 + p2) / 2))) ∧
    (∀ (p0 : Nat) (v0 : F), 2 ≤ (validOf pct).length →
        (validOf pct).head? = some (p0, v0) → F.lt v0 d = true →
        calculate_percentile_class (some d) pct = (some ("<" ++ toString p0), some 0)) ∧
    (∀ (pl : Nat) (vl : F), 2 ≤ (validOf pct).length →
        (validOf pct).getLast? = some (pl, vl) → F.lt d vl = true →
        calculate_percentile_class (some d) pct = (some (">" ++ toString pl), some 100)) := by
  refine ⟨?_, ?_, ?_⟩
  · intro i p1 p2 v1 v2 h1 h2 hle1 hle2 hmin
    have hfb := findBracket_eq_of_first_match d (validOf pct) i p1 p2 v1 v2 h1 h2 hle1 hle2 hmin
    cases hv : validOf pct with
    | nil =>
      rw [hv] at h1
      simp at h1
    | cons a t =>
      cases t with
      | nil =>
        rw [hv] at h2
        obtain ⟨hb, -⟩ := List.getElem?_eq_some_iff.mp h2
        simp at hb
      | cons b t2 =>
        rcases a with ⟨pa, va⟩
        rcases b with ⟨pb, vb⟩
        rw [hv] at hfb
        simp [calculate_percentile_class, hv, hfb]
  · intro p0 v0 hlen hhead hlt
    obtain ⟨a0, x, hv0, hd, hax⟩ := (F.lt_iff _ _).mp hlt
    cases hv : validOf pct with
    | nil =>
      rw [hv] at hhead
      simp at hhead
    | cons a t =>
      cases t with
      | nil =>
        rw [hv] at hlen
        simp at hlen
      | cons b t2 =>
        rcases a with ⟨pa, va⟩
        rcases b with ⟨pb, vb⟩
        rw [hv] at hhead
        simp at hhead
        obtain ⟨hpa, hva⟩ := hhead
        subst hpa
        subst hva
        have hmono' := hv ▸ hmono
        have hnm : ∀ (j q1 q2 : Nat) (w1 w2 : F),
            ((pa, va) :: (pb, vb) :: t2)[j]? = some (q1, w1) →
            ((pa, va) :: (pb, vb) :: t2)[j + 1]? = some (q2, w2) →
            ¬(F.le w2 d = true ∧ F.le d w1 = true) := by
          intro j q1 q2 w1 w2 hj1 hj2 hc
          obtain ⟨x2, c, hd2, hw1, hxc⟩ := (F.le_iff _ _).mp hc.2
          rw [hd] at hd2
          injection hd2 with hx2
          subst hx2
          rcases Nat.eq_zero_or_pos j with hj0 | hjpos
          · subst hj0
            have h0q : ((pa, va) :: (pb, vb) :: t2)[0]? = some (pa, va) := by simp
            rw [h0q] at hj1
            injection hj1 with hj1'
            have hwv : va = w1 := (congrArg Prod.snd hj1')
            rw [hwv, hw1] at hv0
            injection hv0 with ha0
            subst ha0
            linarith
          · have h0q : ((pa, va) :: (pb, vb) :: t2)[0]? = some (pa, va) := by simp
            have hrel := pairwise_getElem_opt hmono' hjpos h0q hj1
            obtain ⟨c2, a2, hw1', hva', hca⟩ := (F.le_iff _ _).mp hrel
            have hw1b : w1 = F.val c2 := hw1'
            have hvab : va = F.val a2 := hva'
            rw [hw1] at hw1b
            injection hw1b with hcc
            rw [hv0] at hvab
            injection hvab with haa
            subst hcc
            subst haa
            linarith
        have hfb := findBracket_eq_none d _ hnm
        simp [calculate_percentile_class, hv, hfb, hlt]
  · intro pl vl hlen hlast hlt
    obtain ⟨x, c, hd, hvl, hxc⟩ := (F.lt_iff _ _).mp hlt
    cases hv : validOf pct with
    | nil =>
      rw [hv] at hlast
      simp at hlast
    | cons a t =>
      cases t with
      | nil =>
        rw [hv] at hlen
        simp at hlen
      | cons b t2 =>
        rcases a with ⟨pa, va⟩
        rcases b with ⟨pb, vb⟩
        rw [hv] at hlast
        have hmono' := hv ▸ hmono
        have hlastq : ((pa, va) :: (pb, vb) :: t2)[t2.length + 1]? = some (pl, vl) := by
          rw [List.getLast?_eq_getElem?] at hlast
          simpa using hlast
        have hnm : ∀ (j q1 q2 : Nat) (w1 w2 : F),
            ((pa, va) :: (pb, vb) :: t2)[j]? = some (q1, w1) →
            ((pa, va) :: (pb, vb) :: t2)[j + 1]? = some (q2, w2) →
            ¬(F.le w2 d = true ∧ F.le d w1 = true) := by
          intro j q1 q2 w1 w2 hj1 hj2 hc
          obtain ⟨e, x2, hw2, hd2, hex⟩ := (F.le_iff _ _).mp hc.1
          rw [hd] at hd2
          injection hd2 with hx2
          subst hx2
          obtain ⟨hj2b, -⟩ := List.getElem?_eq_some_iff.mp hj2
          rcases Nat.lt_or_ge (j + 1) (t2.length + 1) with hsm | hbig
          · have hrel := pairwise_getElem_opt hmono' hsm hj2 hlastq
            obtain ⟨c2, e2, hvl', hw2', hce⟩ := (F.le_iff _ _).mp hrel
            rw [hvl] at hvl'
            injection hvl' with hcc
            rw [hw2] at hw2'
            injection hw2' with hee
            subst hcc
            subst hee
            linarith
          · have hji : j + 1 = t2.length + 1 := by
              have : j + 1 < t2.length + 2 := by simpa using hj2b
              omega
            rw [hji] at hj2
            rw [hj2] at hlastq
            injection hlastq with hpair
            have hwv : w2 = vl := (congrArg Prod.snd hpair)
            rw [hwv, hvl] at hw2
            injection hw2 with hce
            rw [hce] at hxc
            linarith
        have hfb := findBracket_eq_none d _ hnm
        have h0q : ((pa, va) :: (pb, vb) :: t2)[0]? = some (pa, va) := by simp
        have hrel0 := pairwise_getElem_opt hmono' (Nat.succ_pos t2.length) h0q hlastq
        have hlt1 : F.lt va d = false := by
          obtain ⟨c2, a2, hvl', hva', hca⟩ := (F.le_iff _ _).mp hrel0
          have hvlb : vl = F.val c2 := hvl'
          have hvab : va = F.val a2 := hva'
          rw [hvl] at hvlb
          injection hvlb with hcc
          subst hcc
          rw [hvab, hd]
          simp only [F.lt, decide_eq_false_iff_not]
          linarith
        have hz : ((pb, vb) :: t2).getLast? = some (pl, vl) := by
          rw [List.getLast?_cons_cons] at hlast
          exact hlast
        simp [calculate_percentile_class, hv, hfb, hlt1, hz, hlt]

/-- Witness for C4 (amended): the spec's example table, value 15, falls
in the bracket of the pair at index 2 (`12 ≤ 15 ≤ 18`) and in no earlier
bracket, giving label "25-50" and rank 37. -/
theorem calculate_percentile_class_policy_witness :
    calculate_percentile_class (some (F.val 15))
        ⟨some (F.val 40), some (F.val 25), some (F.val 18), some (F.val 12),
         some (F.val 8), some (F.val 5), some (F.val 2)⟩ =
      (some (bracketLabel 25 50), some ((25 + 50) / 2)) :=
  (calculate_percentile_class_policy
      ⟨some (F.val 40), some (F.val 25), some (F.val 18), some (F.val 12),
       some (F.val 8), some (F.val 5), some (F.val 2)⟩ (F.val 15) (by decide)).1
    2 25 50 (F.val 18) (F.val 12) (by decide) (by decide) (by decide) (by decide)
    (by
      intro j q1 q2 w1 w2 hj h1 h2 hc
      interval_cases j
      · have h2b : some ((10 : Nat), F.val 25) = some (q2, w2) := h2
        injection h2b with hp
        have hw : F.val 25 = w2 := congrArg Prod.snd hp
        rw [← hw] at hc
        exact absurd hc.1 (by decide)
      · have h2b : some ((25 : Nat), F.val 18) = some (q2, w2) := h2
        injection h2b with hp
        have hw : F.val 18 = w2 := congrArg Prod.snd hp
        rw [← hw] at hc
        exact absurd hc.1 (by decide))

/-- **C9.** `classify` never raises (it is a total function in this
model, as in the source: every path returns): with fewer than 2 valid
anchors it returns `(None, None)`; and when no adjacent bracket contains
the value and neither edge comparison fires (reachable only with a NaN
depth, whose comparisons are all false), it falls through to the final
`return None, None` instead of raising. -/
theorem calculate_percentile_class_no_raise (pct : PctData) (d : F) :
    ((validOf pct).length < 2 → calculate_percentile_class (some d) pct = (none, none)) ∧
    ((∀ (j q1 q2 : Nat) (w1 w2 : F), (validOf pct)[j]? = some (q1, w1) →
        (validOf pct)[j + 1]? = some (q2, w2) → ¬(F.le w2 d = true ∧ F.le d w1 = true)) →
      (∀ (p0 : Nat) (v0 : F), (validOf pct).head? = some (p0, v0) → F.lt v0 d = false) →
      (∀ (pl : Nat) (vl : F), (validOf pct).getLast? = some (pl, vl) → F.lt d vl = false) →
      calculate_percentile_class (some d) pct = (none, none)) := by
  constructor
  · intro hlen
    cases hv : validOf pct with
    | nil => simp [calculate_percentile_class, hv]
    | cons a t =>
      cases t with
      | nil =>
        rcases a with ⟨pa, va⟩
        simp [calculate_percentile_class, hv]
      | cons b t2 =>
        rw [hv] at hlen
        simp at hlen
        omega
  · intro hnm hlt1 hlt2
    cases hv : validOf pct with
    | nil => simp [calculate_percentile_class, hv]
    | cons a t =>
      cases t with
      | nil =>
        rcases a with ⟨pa, va⟩
        simp [calculate_percentile_class, hv]
      | cons b t2 =>
        rcases a with ⟨pa, va⟩
        rcases b with ⟨pb, vb⟩
        rw [hv] at hnm hlt1 hlt2
        have hfb := findBracket_eq_none d _ hnm
        have h1 := hlt1 pa va (by simp)
        obtain ⟨z, hz⟩ : ∃ z, ((pb, vb) :: t2).getLast? = some z := by
          cases hz0 : ((pb, vb) :: t2).getLast? with
          | none => exact absurd (List.getLast?_eq_none_iff.mp hz0) (by simp)
          | some z => exact ⟨z, rfl⟩
        have hlast : ((pa, va) :: (pb, vb) :: t2).getLast? = some z := by
          rw [List.getLast?_cons_cons]
          exact hz
        have h2 := hlt2 z.1 z.2 hlast
        simp [calculate_percentile_class, hv, hfb, h1, hz, h2]

/-- Witness for C9: a table with a single valid anchor classifies to
`(None, None)`, and a NaN depth against a well-formed 2-anchor table
falls through every branch to `(None, None)`. -/
theorem calculate_percentile_class_no_raise_witness :
    calculate_percentile_class (some (F.val 5))
        ⟨none, none, none, some (F.val 10), none, none, none⟩ = (none, none) ∧
    calculate_percentile_class (some F.nan)
        ⟨some (F.val 30), none, none, none, none, none, some (F.val 3)⟩ = (none, none) :=
  ⟨(calculate_percentile_class_no_raise
      ⟨none, none, none, some (F.val 10), none, none, none⟩ (F.val 5)).1 (by decide),
   (calculate_percentile_class_no_raise
      ⟨some (F.val 30), none, none, none, none, none, some (F.val 3)⟩ F.nan).2
     (fun _ _ _ _ w2 _ _ hc => absurd hc.1 (by simp [F.le_nan_right]))
     (fun _ v0 _ => F.lt_nan_right v0)
     (fun _ vl _ => F.lt_nan_left vl)⟩
